import Mathlib

/-!
Verification of the citation-extraction and graph-construction pipeline of the
JugementReader repository (src/citation_map.py, with one numeral-parsing site
from src/database_converter.py), as a shallow embedding in Lean 4.

Python strings are modelled as Lean `String`, operating on their `List Char`
data so that every definition is structurally recursive and kernel-evaluable.
`None`-able Python values are modelled as `Option`; raised exceptions as
`Except String`.
-/

/-! ### String primitives (Python `str` operations used by the source) -/

/-- True when `p` is an initial segment of `cs` (helper for `str.startswith`). -/
def listHasPre : List Char → List Char → Bool
  | [], _ => true
  | _ :: _, [] => false
  | p :: ps, c :: cs => p == c && listHasPre ps cs

/-- Python `s.startswith(pat)`. -/
def strStarts (s pat : String) : Bool := listHasPre pat.data s.data

/-- Python `s.endswith(pat)`. -/
def strEnds (s pat : String) : Bool := listHasPre pat.data.reverse s.data.reverse

/-- Python `s.strip()`: drop leading and trailing whitespace. -/
def pyStrip (s : String) : String :=
  String.mk (((s.data.dropWhile Char.isWhitespace).reverse.dropWhile Char.isWhitespace).reverse)

/-- Split a character list into its maximal non-whitespace runs
(`cur` holds the current run, reversed). -/
def wordsAux (cur : List Char) : List Char → List (List Char)
  | [] => if cur.isEmpty then [] else [cur.reverse]
  | c :: cs =>
    if c.isWhitespace then
      if cur.isEmpty then wordsAux [] cs else cur.reverse :: wordsAux [] cs
    else wordsAux (c :: cur) cs

/-- Join character runs with single spaces. -/
def joinSp : List (List Char) → List Char
  | [] => []
  | [w] => w
  | w :: ws => w ++ ' ' :: joinSp ws

/-- `_clean_text` from citation_map.py: collapse each whitespace run to one
space and strip the ends (`re.sub(r"\s+", " ", s).strip()`). -/
def cleanText (s : String) : String := String.mk (joinSp (wordsAux [] s.data))

/-- Python `" ".join(l)`. -/
def joinSpaces : List String → String
  | [] => ""
  | [s] => s
  | s :: rest => s ++ " " ++ joinSpaces rest

/-- Python `"".join(l)`. -/
def concatAll (l : List String) : String := l.foldl (fun a b => a ++ b) ""

/-- Numeric value of a run of decimal digits. -/
def digitsVal (cs : List Char) : Nat := cs.foldl (fun n c => 10 * n + (c.toNat - 48)) 0

/-- `re.search(r"(\d+)", s)` followed by `int(...)`: the integer value of the
first maximal run of digits in `cs`, or `none` when `cs` has no digit. -/
def firstRun : List Char → Option Nat
  | [] => none
  | c :: cs => if c.isDigit then some (digitsVal (c :: cs.takeWhile Char.isDigit)) else firstRun cs

/-- Paragraph-numeral parsing used by `extract_paragraph_index`. -/
def parseNumInt (s : String) : Option Nat := firstRun s.data

/-- Tail of the case-citation regex after the bracketed year:
`\s+[A-Z]{2,}.*\d+` (where `.` does not cross a newline). -/
def caseTail : List Char → Bool
  | [] => false
  | c :: cs =>
    if c.isWhitespace then
      match cs.dropWhile Char.isWhitespace with
      | a :: b :: t => a.isUpper && b.isUpper && ((t.takeWhile (fun ch => ch ≠ '\n')).any Char.isDigit)
      | _ => false
    else false

/-- The case-citation regex anchored at the head of `cs`:
`\[\d{4}\]\s+[A-Z]{2,}.*\d+`. -/
def caseAt : List Char → Bool
  | '[' :: a :: b :: c :: d :: ']' :: rest =>
    a.isDigit && b.isDigit && c.isDigit && d.isDigit && caseTail rest
  | _ => false

/-- `re.search` of the case-citation regex: try every start position. -/
def caseSearchL : List Char → Bool
  | [] => false
  | c :: cs => caseAt (c :: cs) || caseSearchL cs

/-- `re.search(r"\[\d{4}\]\s+[A-Z]{2,}.*\d+", s)` as a Bool. -/
def caseSearch (s : String) : Bool := caseSearchL s.data

/-- Python `a or b` on optional strings: `None` and `""` are falsy. -/
def pyOr (a b : Option String) : Option String :=
  match a with
  | some s => if s == "" then b else some s
  | none => b

/-- Python `s or None`: the empty string becomes `None`. -/
def orNone (s : String) : Option String := if s == "" then none else some s

/-- The Python loop `for k, v in attrs: if k.endswith(suf): out = v`
(the last matching attribute wins). -/
def lastAttrEnding (attrs : List (String × String)) (suf : String) : Option String :=
  attrs.foldl (fun acc kv => if strEnds kv.fst suf then some kv.snd else acc) none

/-- First-occurrence deduplication (accumulator holds the values seen so far).
Models both Python `dict` key collapsing and `pandas.Series.nunique` counting. -/
def dedupAux {α : Type} [BEq α] (seen : List α) : List α → List α
  | [] => []
  | x :: xs => if seen.contains x then dedupAux seen xs else x :: dedupAux (x :: seen) xs

/-- Deduplicate a list, keeping first occurrences. -/
def dedupL {α : Type} [BEq α] (l : List α) : List α := dedupAux [] l

/-- `min` of a list of naturals, `none` when empty (pandas `min` skipping NA). -/
def natMin? : List Nat → Option Nat
  | [] => none
  | x :: xs => match natMin? xs with | none => some x | some m => some (Nat.min x m)

/-- `max` of a list of naturals, `none` when empty (pandas `max` skipping NA). -/
def natMax? : List Nat → Option Nat
  | [] => none
  | x :: xs => match natMax? xs with | none => some x | some m => some (Nat.max x m)

/-! ### XML model

lxml element trees are modelled as a mutual inductive (element / forest of
children) so that all traversals are structurally recursive and the kernel can
evaluate them. Attribute keys carry lxml's expanded form, i.e. a namespaced
attribute key reads as the namespace URI in braces followed by the local name.
-/

mutual
inductive Xml where
  | txt (s : String)
  | elem (nm : String) (attrs : List (String × String)) (children : XmlF)
inductive XmlF where
  | nil
  | cons (hd : Xml) (tl : XmlF)
end

/-- Children forest from a list. -/
def XmlF.ofList : List Xml → XmlF
  | [] => XmlF.nil
  | x :: xs => XmlF.cons x (XmlF.ofList xs)

/-- Children forest back to a list. -/
def XmlF.toList : XmlF → List Xml
  | XmlF.nil => []
  | XmlF.cons x t => x :: XmlF.toList t

/-- Element constructor taking a plain list of children. -/
def Xml.el (nm : String) (attrs : List (String × String)) (cs : List Xml) : Xml :=
  Xml.elem nm attrs (XmlF.ofList cs)

/-- `local-name()` comparison (namespace-agnostic element matching). -/
def Xml.nameIs (e : Xml) (n : String) : Bool :=
  match e with
  | Xml.elem m _ _ => m == n
  | Xml.txt _ => false

/-- lxml `element.get(k)`: attribute lookup. -/
def Xml.getAttr (e : Xml) (k : String) : Option String :=
  match e with
  | Xml.elem _ attrs _ => (attrs.find? (fun kv => kv.fst == k)).map Prod.snd
  | Xml.txt _ => none

/-- The attribute list of an element (`element.attrib.items()`). -/
def Xml.attrsOf : Xml → List (String × String)
  | Xml.elem _ attrs _ => attrs
  | Xml.txt _ => []

/-- Direct children as a list. -/
def Xml.childList : Xml → List Xml
  | Xml.elem _ _ cs => XmlF.toList cs
  | Xml.txt _ => []

mutual
/-- `.//text()`: descendant text nodes of a node, in document order
(for an element, the text in its subtree; for a text node, itself). -/
def Xml.subTexts : Xml → List String
  | Xml.txt s => [s]
  | Xml.elem _ _ cs => XmlF.subTexts cs
def XmlF.subTexts : XmlF → List String
  | XmlF.nil => []
  | XmlF.cons x t => Xml.subTexts x ++ XmlF.subTexts t
end

mutual
/-- All element nodes of a subtree in document order, each paired with its
chain of proper ancestors, nearest first (`anc` is the chain above the
subtree's root). Models lxml node iteration plus `iterancestors()`. -/
def Xml.withAnc (anc : List Xml) : Xml → List (Xml × List Xml)
  | Xml.txt _ => []
  | Xml.elem n a cs => (Xml.elem n a cs, anc) :: XmlF.withAnc (Xml.elem n a cs :: anc) cs
def XmlF.withAnc (anc : List Xml) : XmlF → List (Xml × List Xml)
  | XmlF.nil => []
  | XmlF.cons x t => Xml.withAnc anc x ++ XmlF.withAnc anc t
end

/-- Strict descendants of a node in document order (XPath `.//*`). -/
def Xml.strictDesc (e : Xml) : List Xml := ((Xml.withAnc [] e).map Prod.fst).drop 1

/-- XPath `string(...)` cast of an element: all descendant text concatenated. -/
def Xml.strVal (e : Xml) : String := concatAll (Xml.subTexts e)

/-! ### Embedding of src/citation_map.py -/

/-- Result of `extract_case_identity` (citation_map.py lines 36-61). -/
structure Identity where
  tna_page : Option String
  tna_uri : Option String
  neutral_citation : Option String
  work_name : Option String
deriving DecidableEq

/-- XPath `string(.//*[ln=outer]/*[ln=inner][1]/@value)`: for the outer
elements in document order, the first inner child's `value` attribute;
the string cast takes the first attribute node found. -/
def firstChildValue (root : Xml) (outer inner : String) : String :=
  ((((Xml.strictDesc root).filter (fun e => e.nameIs outer)).filterMap
    (fun e => ((e.childList.filter (fun c => c.nameIs inner)).head?).bind
      (fun c => c.getAttr "value"))).headD "")

/-- XPath `string(.//*[ln=outer]//*[ln=inner][1])`: the string value of the
first inner descendant (in document order) of an outer descendant. -/
def firstDescString (root : Xml) (outer inner : String) : String :=
  ((((Xml.strictDesc root).filter (fun e => e.nameIs outer)).flatMap
    (fun p => (Xml.strictDesc p).filter (fun e => e.nameIs inner))).head?).elim "" Xml.strVal

/-- `extract_case_identity` (citation_map.py lines 36-61). -/
def extract_case_identity (root : Xml) : Identity :=
  { tna_page := orNone (cleanText (firstChildValue root "FRBRExpression" "FRBRthis")),
    tna_uri := orNone (cleanText (firstChildValue root "FRBRExpression" "FRBRuri")),
    neutral_citation := orNone (cleanText (firstDescString root "proprietary" "cite")),
    work_name := orNone (cleanText (firstChildValue root "FRBRWork" "FRBRname")) }

/-- One paragraph-index entry: `(num_text, num_int, full_text)`. -/
abbrev PEntry := Option String × Option Nat × String

/-- XPath `.//*[ln='judgmentBody']//*[ln='paragraph'][@eId]`: the paragraph
elements (carrying an `eId`) below a `judgmentBody` below the root, in
document order. A node qualifies when some proper ancestor strictly below
the root is named `judgmentBody`. -/
def bodyParas (root : Xml) : List Xml :=
  ((Xml.withAnc [] root).filter (fun ea =>
    ea.fst.nameIs "paragraph" && (ea.fst.getAttr "eId").isSome &&
      (ea.snd.dropLast.any (fun a => a.nameIs "judgmentBody")))).map Prod.fst

/-- The paragraph-index entry of one paragraph element
(citation_map.py lines 70-87), `none` when its `eId` lacks the
`para_` lead-in and the loop `continue`s. -/
def paraEntry (p : Xml) : Option (String × PEntry) :=
  match p.getAttr "eId" with
  | none => none
  | some eId =>
    if strStarts eId "para_" then
      let num_txt := cleanText (concatAll
        (((p.childList.filter (fun c => c.nameIs "num")).head?).elim [] Xml.subTexts))
      let p_text :=
        match (p.childList.filter (fun c => c.nameIs "content")).head? with
        | some cn => cleanText (joinSpaces (Xml.subTexts cn))
        | none => cleanText (joinSpaces (Xml.subTexts p))
      some (eId, (orNone num_txt, parseNumInt num_txt, p_text))
    else none

/-- Python `out[eId] = v`: overwrite in place, else append. -/
def upsertPara : List (String × PEntry) → String → PEntry → List (String × PEntry)
  | [], k, v => [(k, v)]
  | (k', v') :: rest, k, v =>
    if k' == k then (k', v) :: rest else (k', v') :: upsertPara rest k v

/-- `extract_paragraph_index` (citation_map.py lines 63-89): a dict from
paragraph `eId` to `(num_text, num_int, full_text)`. -/
def extract_paragraph_index (root : Xml) : List (String × PEntry) :=
  (bodyParas root).foldl
    (fun acc p => match paraEntry p with
      | some e => upsertPara acc e.fst e.snd
      | none => acc) []

/-- One extracted reference (citation_map.py lines 131-137). -/
structure Ref where
  href : Option String
  uk_type : Option String
  canonical : Option String
  text : String
  para_eId : Option String
deriving DecidableEq

/-- The filter of citation_map.py line 123: keep a reference when
`uk_type == "case" or looks_like_case`, where `looks_like_case` is the
canonical string matching the case-citation regex. -/
def refKeep (uk_type canonical : Option String) : Bool :=
  uk_type == some "case" ||
    (match canonical with
     | some c => caseSearch c
     | none => false)

/-- The ancestor walk of citation_map.py lines 125-129: the `eId` of the
nearest ancestor whose `eId` begins with `para_`. -/
def ancPara : List Xml → Option String
  | [] => none
  | a :: rest =>
    if strStarts ((a.getAttr "eId").getD "") "para_" then a.getAttr "eId" else ancPara rest

/-- XPath `.//*[ln='judgmentBody']//*[ln='ref']`: reference elements below a
`judgmentBody` below the root, paired with their ancestor chains. -/
def bodyRefs (root : Xml) : List (Xml × List Xml) :=
  (Xml.withAnc [] root).filter (fun ea =>
    ea.fst.nameIs "ref" && (ea.snd.dropLast.any (fun a => a.nameIs "judgmentBody")))

/-- Build the record of citation_map.py lines 131-137 for a kept reference. -/
def mkRef (ea : Xml × List Xml) (uk_type canonical : Option String) : Ref :=
  let href := pyStrip ((ea.fst.getAttr "href").getD "")
  let txt0 := cleanText (joinSpaces (Xml.subTexts ea.fst))
  let txt :=
    if txt0 == "" then
      match canonical with
      | some c => if c == "" then txt0 else c
      | none => txt0
    else txt0
  { href := orNone href,
    uk_type := uk_type,
    canonical := canonical,
    text := txt,
    para_eId := ancPara ea.snd }

/-- `extract_case_refs` (citation_map.py lines 91-138). -/
def extract_case_refs (root : Xml) : List Ref :=
  (bodyRefs root).filterMap (fun ea =>
    let uk_type := lastAttrEnding ea.fst.attrsOf "\x7dtype"
    let canonical := lastAttrEnding ea.fst.attrsOf "\x7dcanonical"
    if refKeep uk_type canonical then some (mkRef ea uk_type canonical) else none)

/-- Sidecar `meta.json` fields the pipeline reads. -/
structure Meta where
  document_uri : Option String
  title : Option String
  links_html : Option String
  links_xml : Option String
  updated : Option String
  published : Option String
deriving DecidableEq

/-- One case directory as the pipeline sees it: `load_meta` and `parse_xml`
either return their value or raise (`Except.error`). -/
structure CaseDir where
  path : String
  metaJson : Except String Meta
  xmlDoc : Except String Xml

/-- A row of the cases (node) table (citation_map.py lines 160-174). -/
structure CaseRow where
  case_id : Option String
  court : Option String
  document_uri : Option String
  title : Option String
  neutral_citation : Option String
  work_name : Option String
  tna_page : Option String
  tna_uri : Option String
  html_link : Option String
  xml_link : Option String
  updated : Option String
  published : Option String
  local_dir : String
deriving DecidableEq

/-- A row of the raw citation-occurrence table (citation_map.py lines 190-204). -/
structure CitationRow where
  source_case_id : Option String
  source_document_uri : Option String
  source_neutral_citation : Option String
  target_href : Option String
  target_neutral_citation : Option String
  target_text : String
  uk_type : Option String
  source_paragraph_eId : Option String
  source_paragraph_num : Option Nat
  source_paragraph_label : Option String
  context_snippet : Option String
deriving DecidableEq

/-- A row of the aggregated edge table (citation_map.py lines 212-222). -/
structure EdgeRow where
  source_case_id : String
  target_key : String
  count_total : Nat
  paras_count : Nat
  first_para : Option Nat
  last_para : Option Nat
deriving DecidableEq

/-- citation_map.py line 162: `meta.get("document_uri", "").split("/")[0]`
when `document_uri` is truthy, else `None`. -/
def courtOf (du : Option String) : Option String :=
  match du with
  | some s => if s == "" then none else some (String.mk (s.data.takeWhile (fun c => c ≠ '/')))
  | none => none

/-- citation_map.py line 157: the case-identifier resolution chain
`ident["tna_page"] or meta.links.html or meta.document_uri`. -/
def resolve_case_id (tna_page html_link document_uri : Option String) : Option String :=
  pyOr (pyOr tna_page html_link) document_uri

/-- The cases-table row appended for one directory (lines 160-174). -/
def caseRowOf (d : CaseDir) (meta : Meta) (ident : Identity) (case_id : Option String) :
    CaseRow :=
  { case_id := case_id,
    court := courtOf meta.document_uri,
    document_uri := meta.document_uri,
    title := meta.title,
    neutral_citation := ident.neutral_citation,
    work_name := ident.work_name,
    tna_page := ident.tna_page,
    tna_uri := ident.tna_uri,
    html_link := meta.links_html,
    xml_link := meta.links_xml,
    updated := meta.updated,
    published := meta.published,
    local_dir := d.path }

/-- Python `para_map.get(para_eId, (None, None, None))` (line 183); the
default makes the text component optional. -/
def lookupPara (m : List (String × PEntry)) (k : Option String) :
    Option String × Option Nat × Option String :=
  match k with
  | some key =>
    match m.find? (fun e => e.fst == key) with
    | some e => (e.snd.1, e.snd.2.1, some e.snd.2.2)
    | none => (none, none, none)
  | none => (none, none, none)

/-- The citation-occurrence row appended for one reference (lines 181-204). -/
def citationRowOf (case_id : Option String) (meta : Meta) (ident : Identity)
    (para_map : List (String × PEntry)) (r : Ref) : CitationRow :=
  let pm := lookupPara para_map r.para_eId
  let snippet :=
    match pm.2.2 with
    | some t => if t == "" then none else some (String.mk (t.data.take 400))
    | none => none
  { source_case_id := case_id,
    source_document_uri := meta.document_uri,
    source_neutral_citation := ident.neutral_citation,
    target_href := r.href,
    target_neutral_citation := r.canonical,
    target_text := r.text,
    uk_type := r.uk_type,
    source_paragraph_eId := r.para_eId,
    source_paragraph_num := pm.2.1,
    source_paragraph_label := pm.1,
    context_snippet := snippet }

/-- The per-case loop of `build_citation_map` (lines 152-204). A raised
exception from `load_meta` or `parse_xml` propagates: there is no handler
in the source, so the first failure aborts the whole traversal. -/
def processCases : List CaseDir → Except String (List CaseRow × List CitationRow)
  | [] => Except.ok ([], [])
  | d :: rest =>
    match d.metaJson with
    | Except.error e => Except.error e
    | Except.ok meta =>
      match d.xmlDoc with
      | Except.error e => Except.error e
      | Except.ok root =>
        let ident := extract_case_identity root
        let case_id := resolve_case_id ident.tna_page meta.links_html meta.document_uri
        let crow := caseRowOf d meta ident case_id
        let para_map := extract_paragraph_index root
        let irows := (extract_case_refs root).map (citationRowOf case_id meta ident para_map)
        match processCases rest with
        | Except.error e => Except.error e
        | Except.ok (cs, is) => Except.ok (crow :: cs, irows ++ is)

/-- `cases_df.drop_duplicates(subset=["case_id"])` (line 206): keep the first
row for each `case_id` (pandas treats missing identifiers as equal). -/
def dropDupCases (seen : List (Option String)) : List CaseRow → List CaseRow
  | [] => []
  | r :: rest =>
    if seen.contains r.case_id then dropDupCases seen rest
    else r :: dropDupCases (r.case_id :: seen) rest

/-- Line 211: `target_href.fillna(target_neutral_citation)`. -/
def targetKeyOf (r : CitationRow) : Option String :=
  match r.target_href with
  | some h => some h
  | none => r.target_neutral_citation

/-- The grouping key of lines 214-215: pandas drops a row from
`groupby(["source_case_id", "target_key"])` when either key is missing
(`dropna(subset=["target_key"])` plus groupby's own NA-key dropping). -/
def aggKey (r : CitationRow) : Option (String × String) :=
  match r.source_case_id, targetKeyOf r with
  | some s, some k => some (s, k)
  | _, _ => none

/-- The rows of one `(source_case_id, target_key)` group. -/
def groupFor (rows : List CitationRow) (p : String × String) : List CitationRow :=
  rows.filter (fun r => aggKey r == some p)

/-- The aggregated row of one group (lines 216-221): `size`, `nunique` of the
anchoring `eId`s (pandas `nunique` drops missing values), `min`/`max` of the
parsed paragraph numbers (skipping missing values). -/
def edgeFor (rows : List CitationRow) (p : String × String) : EdgeRow :=
  let grp := groupFor rows p
  { source_case_id := p.1,
    target_key := p.2,
    count_total := grp.length,
    paras_count := (dedupL (grp.filterMap CitationRow.source_paragraph_eId)).length,
    first_para := natMin? (grp.filterMap CitationRow.source_paragraph_num),
    last_para := natMax? (grp.filterMap CitationRow.source_paragraph_num) }

/-- The aggregated edge table (lines 209-222): one row per distinct present
`(source_case_id, target_key)` pair. (pandas emits groups in sorted key
order; the group order is immaterial to every property stated below.) -/
def aggregateEdges (rows : List CitationRow) : List EdgeRow :=
  (dedupL (rows.filterMap aggKey)).map (edgeFor rows)

/-- `build_citation_map` (lines 140-224). On an empty corpus
`drop_duplicates(subset=["case_id"])` raises `KeyError` (the empty frame has
no columns), and with no citation rows `citations_df["target_href"]` raises
`KeyError`; both are modelled as errors. -/
def build_citation_map (dirs : List CaseDir) :
    Except String (List CaseRow × List CitationRow × List EdgeRow) :=
  match processCases dirs with
  | Except.error e => Except.error e
  | Except.ok (cs, is) =>
    if cs.isEmpty then Except.error "KeyError: case_id"
    else if is.isEmpty then Except.error "KeyError: target_href"
    else Except.ok (dropDupCases [] cs, is, aggregateEdges is)

/-- The node table of a build, empty when the build raised. -/
def casesOf (x : Except String (List CaseRow × List CitationRow × List EdgeRow)) :
    List CaseRow :=
  match x with
  | Except.ok t => t.1
  | Except.error _ => []

/-- The raw occurrence table of a build, empty when the build raised. -/
def rawsOf (x : Except String (List CaseRow × List CitationRow × List EdgeRow)) :
    List CitationRow :=
  match x with
  | Except.ok t => t.2.1
  | Except.error _ => []

/-- The aggregated edge table of a build, empty when the build raised. -/
def edgesOf (x : Except String (List CaseRow × List CitationRow × List EdgeRow)) :
    List EdgeRow :=
  match x with
  | Except.ok t => t.2.2
  | Except.error _ => []

/-- Embeds repo_to_dataframes, database_converter.py lines 219-223: the
paragraph-number cleanup `re.sub(r"[^\d]*", "", num) if num else num`
followed by an unguarded `int(...)`, which raises `ValueError` on a
digit-free label and `TypeError` on a missing one. -/
def db_para_number (num : Option String) : Except String Nat :=
  let cleaned : Option String :=
    match num with
    | some s => if s == "" then some s else some (String.mk (s.data.filter Char.isDigit))
    | none => none
  match cleaned with
  | none => Except.error "TypeError: int() argument must not be None"
  | some s =>
    if s == "" then Except.error "ValueError: invalid literal for int() with base 10"
    else Except.ok (digitsVal s.data)

/-! ### Specification-side definitions (for refinement comparison) -/

/-- Follows the spec's words for C4: an `eId` of shape `para_<digits>` —
the literal lead-in `para_` followed by one or more digits. -/
def paraDigitsSpec (s : String) : Bool :=
  strStarts s "para_" && (!(s.data.drop 5).isEmpty && (s.data.drop 5).all Char.isDigit)

/-- Follows the spec's words for C3: the number of distinct anchoring
paragraph identifiers of a group, treating `None` as one distinct value
when actually present among the anchors. -/
def paras_count_spec (rows : List CitationRow) : Nat :=
  (dedupL (rows.map CitationRow.source_paragraph_eId)).length

/-- Follows the spec's words for C7: a field that is empty after whitespace
normalization is treated as absent. -/
def normNonEmpty (x : Option String) : Option String :=
  match x with
  | some s => orNone (cleanText s)
  | none => none

/-- Follows the spec's words for C7: the first present-and-non-empty (after
whitespace normalization) among the page URI, the html link and the raw
document URI. -/
def resolve_case_id_spec (tna_page html_link document_uri : Option String) : Option String :=
  match normNonEmpty tna_page with
  | some s => some s
  | none =>
    match normNonEmpty html_link with
    | some s => some s
    | none => normNonEmpty document_uri

/-! ### Concrete documents and corpora used by the claims -/

/-- The uk jurisdiction-extension namespace URI in lxml's expanded-key braces. -/
def ukNS : String := "\x7bhttps://caselaw.nationalarchives.gov.uk/akn\x7d"

/-- C1: a body reference explicitly typed `legislation` whose canonical
citation matches the case-citation pattern. -/
def c1Doc : Xml :=
  Xml.el "akomaNtoso" [] [
    Xml.el "judgment" [] [
      Xml.el "judgmentBody" [] [
        Xml.el "paragraph" [("eId", "para_1")] [
          Xml.el "num" [] [Xml.txt "1."],
          Xml.el "content" [] [
            Xml.el "p" [] [
              Xml.txt "Pursuant to ",
              Xml.el "ref" [(ukNS ++ "type", "legislation"),
                            (ukNS ++ "canonical", "[2024] EWCA Civ 419")]
                [Xml.txt "the Act"]]]]]]]

/-- C4: a body paragraph whose `eId` begins with `para_` but carries no digits. -/
def c4Doc : Xml :=
  Xml.el "akomaNtoso" [] [
    Xml.el "judgment" [] [
      Xml.el "judgmentBody" [] [
        Xml.el "paragraph" [("eId", "para_intro")] [
          Xml.el "num" [] [Xml.txt "—"],
          Xml.el "content" [] [Xml.txt "Introductory words."]]]]]

/-- C6: one reference nested three levels below a paragraph `para_12`, and one
reference directly under the body, outside any paragraph. -/
def c6Doc : Xml :=
  Xml.el "akomaNtoso" [] [
    Xml.el "judgment" [] [
      Xml.el "judgmentBody" [] [
        Xml.el "paragraph" [("eId", "para_12")] [
          Xml.el "content" [] [
            Xml.el "p" [] [
              Xml.el "span" [] [
                Xml.el "ref" [(ukNS ++ "type", "case"),
                              (ukNS ++ "canonical", "[2019] UKSC 20")]
                  [Xml.txt "R v Smith"]]]]],
        Xml.el "ref" [(ukNS ++ "type", "case"),
                      (ukNS ++ "canonical", "[2001] UKHL 7")]
          [Xml.txt "floating citation"]]]]

/-- C6: the only reference sits in the document header, not in the body. -/
def c6HeadDoc : Xml :=
  Xml.el "akomaNtoso" [] [
    Xml.el "judgment" [] [
      Xml.el "header" [] [
        Xml.el "p" [] [
          Xml.el "ref" [(ukNS ++ "type", "case"),
                        (ukNS ++ "canonical", "[2024] EWCA Civ 419")]
            [Xml.txt "Smith v Jones"]]],
      Xml.el "judgmentBody" [] [
        Xml.el "paragraph" [("eId", "para_1")] [
          Xml.el "content" [] [Xml.txt "No references here."]]]]]

/-- C7: a document with no FRBR identity but one citing reference, so the
case identifier falls through to the sidecar fields. -/
def c7Doc : Xml :=
  Xml.el "akomaNtoso" [] [
    Xml.el "judgment" [] [
      Xml.el "judgmentBody" [] [
        Xml.el "paragraph" [("eId", "para_1")] [
          Xml.el "num" [] [Xml.txt "1."],
          Xml.el "content" [] [
            Xml.el "ref" [(ukNS ++ "type", "case"),
                          (ukNS ++ "canonical", "[2019] UKSC 20")]
              [Xml.txt "R v Smith"]]]]]]

/-- C7: sidecar metadata whose html link is whitespace-only. -/
def c7Meta : Meta :=
  { document_uri := some "ewca/civ/2024/419",
    title := some "Smith v Jones",
    links_html := some " ",
    links_xml := none,
    updated := none,
    published := none }

/-- C7: the case directory with the whitespace-only html link. -/
def c7Dir : CaseDir :=
  { path := "repo/ewca/civ/2024/419", metaJson := Except.ok c7Meta, xmlDoc := Except.ok c7Doc }

/-- A well-formed document carrying its own FRBR page identity and one
citing reference. -/
def okDoc : Xml :=
  Xml.el "akomaNtoso" [] [
    Xml.el "judgment" [] [
      Xml.el "meta" [] [
        Xml.el "identification" [] [
          Xml.el "FRBRExpression" [] [
            Xml.el "FRBRthis" [("value", "https://caselaw.nationalarchives.gov.uk/uksc/2020/1")] [],
            Xml.el "FRBRuri" [("value", "https://caselaw.nationalarchives.gov.uk/id/uksc/2020/1")] []]]],
      Xml.el "judgmentBody" [] [
        Xml.el "paragraph" [("eId", "para_3")] [
          Xml.el "num" [] [Xml.txt "3."],
          Xml.el "content" [] [
            Xml.txt "Relying on ",
            Xml.el "ref" [("href", "https://caselaw.nationalarchives.gov.uk/ewca/civ/2020/5"),
                          (ukNS ++ "type", "case"),
                          (ukNS ++ "canonical", "[2020] EWCA Civ 5")]
              [Xml.txt "Doe v Roe"]]]]]]

/-- Sidecar metadata of the well-formed case. -/
def okMeta : Meta :=
  { document_uri := some "uksc/2020/1",
    title := some "Doe v Roe",
    links_html := some "https://caselaw.nationalarchives.gov.uk/uksc/2020/1",
    links_xml := some "https://caselaw.nationalarchives.gov.uk/uksc/2020/1/data.xml",
    updated := none,
    published := none }

/-- C2: a case directory that parses cleanly. -/
def c2OkDir : CaseDir :=
  { path := "repo/uksc/2020/1", metaJson := Except.ok okMeta, xmlDoc := Except.ok okDoc }

/-- C2: a case directory whose data.xml is unreadable (parse raises). -/
def c2BadDir : CaseDir :=
  { path := "repo/uksc/2020/2", metaJson := Except.ok okMeta,
    xmlDoc := Except.error "XMLSyntaxError: Document is empty" }

/-- C2: a case directory yielding no identifier at all: no FRBR page, no html
link, no document URI. -/
def c2NoIdDir : CaseDir :=
  { path := "repo/uksc/2020/3",
    metaJson := Except.ok
      { document_uri := none, title := none, links_html := none,
        links_xml := none, updated := none, published := none },
    xmlDoc := Except.ok c7Doc }

/-- C8: a body paragraph with one keyed reference (canonical only) and one
reference carrying neither href nor canonical. -/
def c8Doc : Xml :=
  Xml.el "akomaNtoso" [] [
    Xml.el "judgment" [] [
      Xml.el "judgmentBody" [] [
        Xml.el "paragraph" [("eId", "para_2")] [
          Xml.el "num" [] [Xml.txt "2."],
          Xml.el "content" [] [
            Xml.el "ref" [(ukNS ++ "type", "case"),
                          (ukNS ++ "canonical", "[2020] EWCA Civ 5")]
              [Xml.txt "Doe v Roe"],
            Xml.txt " and ",
            Xml.el "ref" [(ukNS ++ "type", "case")]
              [Xml.txt "an unmarked citation"]]]]]]

/-- C8: the directory holding `c8Doc`. -/
def c8Dir : CaseDir :=
  { path := "repo/uksc/2020/8", metaJson := Except.ok okMeta, xmlDoc := Except.ok c8Doc }

/-- A citation-occurrence row with the given source, key fields and anchor
(the remaining columns are immaterial to aggregation). -/
def mkRow (src href canon eId : Option String) (num : Option Nat) : CitationRow :=
  { source_case_id := src,
    source_document_uri := none,
    source_neutral_citation := none,
    target_href := href,
    target_neutral_citation := canon,
    target_text := "",
    uk_type := some "case",
    source_paragraph_eId := eId,
    source_paragraph_num := num,
    source_paragraph_label := none,
    context_snippet := none }

/-- C3: two occurrences of one pair, one anchored at `para_3`, one unanchored. -/
def c3RowA : CitationRow := mkRow (some "S") none (some "[2020] EWCA Civ 5") none none
/-- C3: the anchored companion of `c3RowA`. -/
def c3RowB : CitationRow := mkRow (some "S") none (some "[2020] EWCA Civ 5") (some "para_3") (some 3)

/-- C3: the spec's worked example — three occurrences of one pair anchored at
paragraphs 3, 3 and 7. -/
def c3Rows337 : List CitationRow :=
  [mkRow (some "S") none (some "[2020] EWCA Civ 5") (some "para_3") (some 3),
   mkRow (some "S") none (some "[2020] EWCA Civ 5") (some "para_3") (some 3),
   mkRow (some "S") none (some "[2020] EWCA Civ 5") (some "para_7") (some 7)]


/-- Follows the spec's words for C3: the group of raw occurrences sharing a
given present `(source_case_id, target_key)` pair. -/
def specGroup (rows : List CitationRow) (s k : String) : List CitationRow :=
  rows.filter (fun r => r.source_case_id == some s && targetKeyOf r == some k)

/-- C10: a one-occurrence corpus slice. -/
def c10Rows : List CitationRow :=
  [mkRow (some "A") (some "h1") none (some "para_1") (some 1)]

/-- A cases-table row with the given identifier and directory (the remaining
columns are immaterial to deduplication). -/
def mkCRow (id : Option String) (dir : String) : CaseRow :=
  { case_id := id, court := none, document_uri := none, title := none,
    neutral_citation := none, work_name := none, tna_page := none,
    tna_uri := none, html_link := none, xml_link := none, updated := none,
    published := none, local_dir := dir }

/-! ### Helper lemmas -/

theorem dedupAux_sub {α : Type} [BEq α] (l : List α) :
    ∀ (seen : List α) (a : α), a ∈ dedupAux seen l → a ∈ l := by
  induction l with
  | nil => intro seen a h; simp [dedupAux] at h
  | cons x xs ih =>
    intro seen a h
    unfold dedupAux at h
    split at h
    · exact List.mem_cons_of_mem x (ih seen a h)
    · rcases List.mem_cons.mp h with rfl | h'
      · exact List.mem_cons_self a xs
      · exact List.mem_cons_of_mem x (ih _ a h')

theorem dedupAux_len {α : Type} [BEq α] (l : List α) :
    ∀ seen : List α, (dedupAux seen l).length ≤ l.length := by
  induction l with
  | nil => intro seen; simp [dedupAux]
  | cons x xs ih =>
    intro seen
    unfold dedupAux
    split
    · exact Nat.le_succ_of_le (ih seen)
    · simpa using Nat.succ_le_succ (ih (x :: seen))

theorem filterMap_len_le {α β : Type} (f : α → Option β) (l : List α) :
    (l.filterMap f).length ≤ l.length := by
  induction l with
  | nil => simp
  | cons x xs ih =>
    rw [List.filterMap_cons]
    cases f x with
    | none => exact Nat.le_succ_of_le ih
    | some b => simpa using Nat.succ_le_succ ih

/-! ### Claim C1 -/

/-- C1 counterexample: a reference whose explicit jurisdiction-extension type
is `legislation` and whose canonical matches the case pattern IS emitted by
the extractor as a case-citation observation (the claim says it never is). -/
theorem c1_counterexample :
    extract_case_refs c1Doc =
      [{ href := none, uk_type := some "legislation",
         canonical := some "[2024] EWCA Civ 419", text := "the Act",
         para_eId := some "para_1" }] := by decide

/-- C1 (amended): the extractor never classifies anything as legislation; it
keeps a reference iff its explicit type is `case` OR its canonical matches
the case pattern, so every emitted reference not explicitly typed `case`
(in particular every legislation-typed one) has a canonical citation string
matching the case-citation textual pattern. -/
theorem c1_theorem (root : Xml) (r : Ref) (h : r ∈ extract_case_refs root)
    (hne : r.uk_type ≠ some "case") :
    ∃ c, r.canonical = some c ∧ caseSearch c = true := by
  unfold extract_case_refs at h
  rw [List.mem_filterMap] at h
  obtain ⟨ea, _, hf⟩ := h
  simp only at hf
  split at hf
  case isTrue hk =>
    obtain rfl : mkRef ea (lastAttrEnding ea.fst.attrsOf "\x7dtype")
        (lastAttrEnding ea.fst.attrsOf "\x7dcanonical") = r := by
      exact Option.some.inj hf
    have hut : (mkRef ea (lastAttrEnding ea.fst.attrsOf "\x7dtype")
        (lastAttrEnding ea.fst.attrsOf "\x7dcanonical")).uk_type =
        lastAttrEnding ea.fst.attrsOf "\x7dtype" := rfl
    unfold refKeep at hk
    rw [Bool.or_eq_true] at hk
    rcases hk with hk | hk
    · exact absurd (by rw [hut]; exact beq_iff_eq.mp hk) hne
    · cases hc : lastAttrEnding ea.fst.attrsOf "\x7dcanonical" with
      | none =>
        rw [hc] at hk
        exact Bool.noConfusion hk
      | some c =>
        rw [hc] at hk
        exact ⟨c, rfl, hk⟩
  case isFalse => cases hf

/-- C1 witness: the amended theorem applied to the concrete document. -/
theorem c1_witness :
    ∃ c, (Ref.mk none (some "legislation") (some "[2024] EWCA Civ 419")
      "the Act" (some "para_1")).canonical = some c ∧ caseSearch c = true :=
  c1_theorem c1Doc
    (Ref.mk none (some "legislation") (some "[2024] EWCA Civ 419") "the Act" (some "para_1"))
    (by decide) (by decide)

/-! ### Claim C4 -/

theorem upsertPara_keys (m : List (String × PEntry)) (k : String) (v : PEntry) :
    ∀ a ∈ (upsertPara m k v).map Prod.fst, a = k ∨ a ∈ m.map Prod.fst := by
  induction m with
  | nil => intro a ha; simp [upsertPara] at ha; exact Or.inl ha
  | cons x rest ih =>
    obtain ⟨k', v'⟩ := x
    intro a ha
    unfold upsertPara at ha
    split at ha
    · rw [List.map_cons, List.mem_cons] at ha
      rcases ha with rfl | ha'
      · right; simp
      · right; rw [List.map_cons, List.mem_cons]; exact Or.inr ha'
    · rw [List.map_cons, List.mem_cons] at ha
      rcases ha with rfl | ha'
      · right; simp
      · rcases ih a ha' with h | h
        · exact Or.inl h
        · right; rw [List.map_cons, List.mem_cons]; exact Or.inr h

theorem paraEntry_key (p : Xml) (e : String × PEntry) (h : paraEntry p = some e) :
    strStarts e.fst "para_" = true := by
  unfold paraEntry at h
  cases hg : p.getAttr "eId" with
  | none => rw [hg] at h; cases h
  | some eId =>
    rw [hg] at h
    dsimp only at h
    by_cases hs : strStarts eId "para_" = true
    · rw [if_pos hs] at h
      cases h
      exact hs
    · rw [if_neg hs] at h
      cases h

theorem extract_pi_keys (ps : List Xml) :
    ∀ acc : List (String × PEntry),
      (∀ a ∈ acc.map Prod.fst, strStarts a "para_" = true) →
      ∀ a ∈ ((ps.foldl (fun acc p =>
          match paraEntry p with
          | some e => upsertPara acc e.fst e.snd
          | none => acc) acc).map Prod.fst),
        strStarts a "para_" = true := by
  induction ps with
  | nil => intro acc hacc a ha; exact hacc a (by simpa using ha)
  | cons p rest ih =>
    intro acc hacc a ha
    rw [List.foldl_cons] at ha
    refine ih _ ?_ a ha
    cases hpe : paraEntry p with
    | none => simpa [hpe] using hacc
    | some e =>
      simp only [hpe]
      intro b hb
      rcases upsertPara_keys acc e.fst e.snd b hb with rfl | hb'
      · exact paraEntry_key p e hpe
      · exact hacc b hb'

/-- C4 counterexample: the paragraph index of `c4Doc` carries the key
`para_intro`, which does not match the spec's `para_<digits>` pattern. -/
theorem c4_counterexample :
    (extract_paragraph_index c4Doc).map Prod.fst = ["para_intro"] ∧
    paraDigitsSpec "para_intro" = false := by decide

/-- C4 (amended): every key of the paragraph index merely begins with the
prefix `para_` (the indexer checks the lead-in only, not that digits
follow); elements whose `eId` lacks the lead-in are excluded, and by
construction every key comes from a paragraph descendant of the body. -/
theorem c4_theorem (root : Xml) (k : String)
    (h : k ∈ (extract_paragraph_index root).map Prod.fst) :
    strStarts k "para_" = true := by
  unfold extract_paragraph_index at h
  exact extract_pi_keys (bodyParas root) [] (by simp) k h

/-- C4 witness: the amended theorem applied to the concrete document. -/
theorem c4_witness : strStarts "para_intro" "para_" = true :=
  c4_theorem c4Doc "para_intro" (by decide)

/-! ### Claim C5 -/

/-- C5: the paragraph indexer's numeral parsing takes the first digit run
(`"(12A)"` gives 12) and yields `none` on a digit-free label; but the
paragraph-table converter in database_converter.py strips all non-digits
and calls `int()` unguarded, raising `ValueError` on the digit-free label
`"—"` (and concatenating separated digit runs). -/
theorem c5_theorem :
    parseNumInt "(12A)" = some 12 ∧
    parseNumInt "—" = none ∧
    db_para_number (some "—") =
      Except.error "ValueError: invalid literal for int() with base 10" ∧
    db_para_number (some "(12A)") = Except.ok 12 :=
  ⟨by decide, by decide, by rfl, by rfl⟩

/-! ### Claim C6 -/

/-- C6 counterexample: a reference in the document header (outside the
judgment body) is not recorded as an observation at all — the extractor
scans only `judgmentBody` descendants, so no row with `para_eId = None`
appears for it. -/
theorem c6_counterexample : extract_case_refs c6HeadDoc = [] := by decide

/-- C6 (amended): a reference nested several levels inside a body paragraph
with eId `para_12` resolves `para_eId = "para_12"`; a body reference outside
any paragraph resolves `para_eId = None` and is still recorded; a reference
in the document header is never enumerated, hence never recorded. -/
theorem c6_theorem :
    (extract_case_refs c6Doc).map Ref.para_eId = [some "para_12", none] ∧
    extract_case_refs c6HeadDoc = [] := by decide

/-! ### Claim C10 -/

/-- C10: every aggregated edge row comes from a non-empty occurrence group,
so `count_total ≥ 1`, and its distinct-anchor count never exceeds the
group size, so `paras_count ≤ count_total`. -/
theorem c10_theorem (rows : List CitationRow) (e : EdgeRow)
    (h : e ∈ aggregateEdges rows) :
    1 ≤ e.count_total ∧ e.paras_count ≤ e.count_total := by
  unfold aggregateEdges at h
  rw [List.mem_map] at h
  obtain ⟨p, hp, rfl⟩ := h
  have hp' : p ∈ rows.filterMap aggKey := dedupAux_sub _ _ _ hp
  rw [List.mem_filterMap] at hp'
  obtain ⟨r, hr, hk⟩ := hp'
  have hg : r ∈ groupFor rows p := by
    unfold groupFor
    rw [List.mem_filter]
    exact ⟨hr, by rw [hk]; exact beq_self_eq_true _⟩
  constructor
  · show 1 ≤ (groupFor rows p).length
    exact Nat.succ_le_of_lt (List.length_pos.mpr (List.ne_nil_of_mem hg))
  · show (dedupL ((groupFor rows p).filterMap CitationRow.source_paragraph_eId)).length ≤
      (groupFor rows p).length
    exact Nat.le_trans (dedupAux_len _ _)
      (filterMap_len_le CitationRow.source_paragraph_eId (groupFor rows p))

/-- C10 witness: the invariant at a concrete one-row corpus slice. -/
theorem c10_witness :
    1 ≤ (EdgeRow.mk "A" "h1" 1 1 (some 1) (some 1)).count_total ∧
    (EdgeRow.mk "A" "h1" 1 1 (some 1) (some 1)).paras_count ≤
      (EdgeRow.mk "A" "h1" 1 1 (some 1) (some 1)).count_total :=
  c10_theorem c10Rows (EdgeRow.mk "A" "h1" 1 1 (some 1) (some 1)) (by decide)

/-! ### Claim C2 -/

theorem processCases_err (dirs : List CaseDir) (d : CaseDir) (hmem : d ∈ dirs)
    (msg : String) (hx : d.xmlDoc = Except.error msg) :
    ∃ e, processCases dirs = Except.error e := by
  induction dirs with
  | nil => cases hmem
  | cons x rest ih =>
    rcases List.mem_cons.mp hmem with rfl | h'
    · cases hm : d.metaJson with
      | error e => exact ⟨e, by simp [processCases, hm]⟩
      | ok m => exact ⟨msg, by simp [processCases, hm, hx]⟩
    · cases hm : x.metaJson with
      | error e => exact ⟨e, by simp [processCases, hm]⟩
      | ok m =>
        cases hxm : x.xmlDoc with
        | error e => exact ⟨e, by simp [processCases, hm, hxm]⟩
        | ok root =>
          obtain ⟨e, he⟩ := ih h'
          exact ⟨e, by simp [processCases, hm, hxm, he]⟩

/-- C2 counterexample: a corpus with one clean case and one case whose
data.xml raises aborts the whole build (the claim says the failure is
skipped and the tables are the union over the successful cases — here the
one-good-case corpus alone does build). -/
theorem c2_counterexample :
    build_citation_map [c2OkDir, c2BadDir] =
      Except.error "XMLSyntaxError: Document is empty" ∧
    (build_citation_map [c2OkDir]).toOption.isSome = true := ⟨rfl, by decide⟩

/-- C2 (amended): an individual document whose parse raises aborts the
corpus-wide aggregation — the exception propagates out of
`build_citation_map` and no tables are produced; and a case yielding no
identifiable case identifier is not skipped either: it contributes a node
row whose `case_id` is null. -/
theorem c2_theorem (dirs : List CaseDir) (d : CaseDir) (hmem : d ∈ dirs)
    (msg : String) (hx : d.xmlDoc = Except.error msg) :
    (build_citation_map dirs).toOption = none ∧
    (casesOf (build_citation_map [c2NoIdDir])).map CaseRow.case_id = [none] := by
  constructor
  · obtain ⟨e, he⟩ := processCases_err dirs d hmem msg hx
    simp [build_citation_map, he, Except.toOption]
  · decide

/-- C2 witness: the amended theorem applied to the concrete corpus. -/
theorem c2_witness :
    (build_citation_map [c2OkDir, c2BadDir]).toOption = none ∧
    (casesOf (build_citation_map [c2NoIdDir])).map CaseRow.case_id = [none] :=
  c2_theorem [c2OkDir, c2BadDir] c2BadDir (List.Mem.tail _ (List.Mem.head _))
    "XMLSyntaxError: Document is empty" rfl

/-! ### Claim C3 -/

theorem optBeq_none_some {α : Type} [BEq α] (a : α) :
    ((none : Option α) == some a) = false := rfl

theorem optBeq_some_some {α : Type} [BEq α] (a b : α) :
    ((some a : Option α) == some b) = (a == b) := rfl

theorem prodBeq_mk {α β : Type} [BEq α] [BEq β] (a c : α) (b d : β) :
    ((a, b) == (c, d)) = (a == c && b == d) := rfl

theorem aggKey_filter_eq (p : String × String) (rows : List CitationRow) :
    groupFor rows p = specGroup rows p.1 p.2 := by
  unfold groupFor specGroup
  apply List.filter_congr
  intro r _
  obtain ⟨p1, p2⟩ := p
  cases hs : r.source_case_id with
  | none =>
    cases ht : targetKeyOf r with
    | none => simp [aggKey, hs, ht, optBeq_none_some]
    | some k => simp [aggKey, hs, ht, optBeq_none_some]
  | some s =>
    cases ht : targetKeyOf r with
    | none => simp [aggKey, hs, ht, optBeq_none_some, optBeq_some_some]
    | some k => simp [aggKey, hs, ht, optBeq_some_some, prodBeq_mk]

/-- C3 counterexample: a group whose anchors are `None` and `para_3` gets
`paras_count = 1` from the code (pandas `nunique` drops the missing
value), while the claim's rule — `None` counts as one distinct value when
present — prescribes 2. -/
theorem c3_counterexample :
    (aggregateEdges [c3RowA, c3RowB]).map EdgeRow.paras_count = [1] ∧
    paras_count_spec [c3RowA, c3RowB] = 2 := by decide

/-- C3 (amended): every aggregated row's `count_total` is its group's
occurrence count, `paras_count` is the number of distinct non-missing
anchoring paragraph identifiers (a `None` anchor is never counted), and
`first_para`/`last_para` are the min/max parsed paragraph numbers ignoring
absent values; the 3, 3, 7 example yields 3 / 2 / 3 / 7. -/
theorem c3_theorem (rows : List CitationRow) (e : EdgeRow)
    (h : e ∈ aggregateEdges rows) :
    e.count_total = (specGroup rows e.source_case_id e.target_key).length ∧
    e.paras_count = (dedupL ((specGroup rows e.source_case_id e.target_key).filterMap
      CitationRow.source_paragraph_eId)).length ∧
    e.first_para = natMin? ((specGroup rows e.source_case_id e.target_key).filterMap
      CitationRow.source_paragraph_num) ∧
    e.last_para = natMax? ((specGroup rows e.source_case_id e.target_key).filterMap
      CitationRow.source_paragraph_num) := by
  unfold aggregateEdges at h
  rw [List.mem_map] at h
  obtain ⟨p, hp, rfl⟩ := h
  have hg : specGroup rows (edgeFor rows p).source_case_id (edgeFor rows p).target_key =
      groupFor rows p := by
    have h1 : (edgeFor rows p).source_case_id = p.1 := rfl
    have h2 : (edgeFor rows p).target_key = p.2 := rfl
    rw [h1, h2]
    exact (aggKey_filter_eq p rows).symm
  rw [hg]
  exact ⟨rfl, rfl, rfl, rfl⟩

/-- C3 witness: the amended theorem at the spec's 3, 3, 7 example. -/
theorem c3_witness :
    (EdgeRow.mk "S" "[2020] EWCA Civ 5" 3 2 (some 3) (some 7)).count_total =
      (specGroup c3Rows337 "S" "[2020] EWCA Civ 5").length ∧
    (EdgeRow.mk "S" "[2020] EWCA Civ 5" 3 2 (some 3) (some 7)).paras_count =
      (dedupL ((specGroup c3Rows337 "S" "[2020] EWCA Civ 5").filterMap
        CitationRow.source_paragraph_eId)).length ∧
    (EdgeRow.mk "S" "[2020] EWCA Civ 5" 3 2 (some 3) (some 7)).first_para =
      natMin? ((specGroup c3Rows337 "S" "[2020] EWCA Civ 5").filterMap
        CitationRow.source_paragraph_num) ∧
    (EdgeRow.mk "S" "[2020] EWCA Civ 5" 3 2 (some 3) (some 7)).last_para =
      natMax? ((specGroup c3Rows337 "S" "[2020] EWCA Civ 5").filterMap
        CitationRow.source_paragraph_num) :=
  c3_theorem c3Rows337 (EdgeRow.mk "S" "[2020] EWCA Civ 5" 3 2 (some 3) (some 7))
    (by decide)

/-! ### Claim C7 -/

/-- C7 counterexample: with no canonical page URI, a whitespace-only html
link and a real document URI, the build picks the whitespace-only link as
`case_id`, while the claim's normalize-then-skip rule picks the document
URI. -/
theorem c7_counterexample :
    (casesOf (build_citation_map [c7Dir])).map CaseRow.case_id = [some " "] ∧
    resolve_case_id_spec none (some " ") (some "ewca/civ/2024/419") =
      some "ewca/civ/2024/419" := by decide

/-- C7 (amended): the resolution chain normalizes only the document's own
page URI; the sidecar html link and document URI are used raw with Python
truthiness (only the empty string is skipped). When every present field is
already whitespace-normal and non-empty, the code agrees with the claim's
resolution order. -/
theorem c7_theorem (t h u : Option String)
    (ht : ∀ s, t = some s → cleanText s = s ∧ s ≠ "")
    (hh : ∀ s, h = some s → cleanText s = s ∧ s ≠ "")
    (hu : ∀ s, u = some s → cleanText s = s ∧ s ≠ "") :
    resolve_case_id t h u = resolve_case_id_spec t h u := by
  cases t with
  | some s =>
    obtain ⟨hc, hne⟩ := ht s rfl
    have hb : (s == "") = false := beq_eq_false_iff_ne.mpr hne
    simp [resolve_case_id, resolve_case_id_spec, pyOr, normNonEmpty, orNone, hc, hb]
  | none =>
    cases h with
    | some s =>
      obtain ⟨hc, hne⟩ := hh s rfl
      have hb : (s == "") = false := beq_eq_false_iff_ne.mpr hne
      simp [resolve_case_id, resolve_case_id_spec, pyOr, normNonEmpty, orNone, hc, hb]
    | none =>
      cases u with
      | some s =>
        obtain ⟨hc, hne⟩ := hu s rfl
        have hb : (s == "") = false := beq_eq_false_iff_ne.mpr hne
        simp [resolve_case_id, resolve_case_id_spec, pyOr, normNonEmpty, orNone, hc, hb]
      | none => rfl

/-- C7 witness: agreement of the two resolutions on clean fields. -/
theorem c7_witness :
    resolve_case_id (some "https://caselaw.nationalarchives.gov.uk/uksc/2020/1")
      none (some "uksc/2020/1") =
    resolve_case_id_spec (some "https://caselaw.nationalarchives.gov.uk/uksc/2020/1")
      none (some "uksc/2020/1") :=
  c7_theorem _ _ _
    (fun s hs => by injection hs with h; subst h; exact ⟨rfl, by decide⟩)
    (fun s hs => by cases hs)
    (fun s hs => by injection hs with h; subst h; exact ⟨rfl, by decide⟩)

/-! ### Claim C8 -/

theorem aggKey_none_keys (pre post : List CitationRow) (r : CitationRow)
    (hk : aggKey r = none) :
    (pre ++ r :: post).filterMap aggKey = (pre ++ post).filterMap aggKey := by
  simp [List.filterMap_append, List.filterMap_cons, hk]

theorem aggKey_none_group (pre post : List CitationRow) (r : CitationRow)
    (hk : aggKey r = none) (p : String × String) :
    groupFor (pre ++ r :: post) p = groupFor (pre ++ post) p := by
  have hb : (aggKey r == some p) = false := by rw [hk]; rfl
  unfold groupFor
  simp [List.filter_append, List.filter_cons, hb]

/-- C8: an occurrence's target key is its href, else its canonical; an
occurrence with neither contributes nothing to the aggregated edge table
(inserting it anywhere leaves aggregation unchanged) yet appears in the
raw occurrence table, while an occurrence with only a canonical aggregates
under that canonical string. -/
theorem c8_theorem (pre post : List CitationRow) (r : CitationRow)
    (h1 : r.target_href = none) (h2 : r.target_neutral_citation = none) :
    aggregateEdges (pre ++ r :: post) = aggregateEdges (pre ++ post) ∧
    (rawsOf (build_citation_map [c8Dir])).map targetKeyOf =
      [some "[2020] EWCA Civ 5", none] ∧
    (edgesOf (build_citation_map [c8Dir])).map
      (fun e => (e.source_case_id, e.target_key, e.count_total)) =
      [("https://caselaw.nationalarchives.gov.uk/uksc/2020/1", "[2020] EWCA Civ 5", 1)] := by
  have ht : targetKeyOf r = none := by
    unfold targetKeyOf
    rw [h1]
    exact h2
  have hk : aggKey r = none := by
    unfold aggKey
    rw [ht]
    cases r.source_case_id <;> rfl
  refine ⟨?_, by decide, by decide⟩
  unfold aggregateEdges
  rw [aggKey_none_keys pre post r hk]
  apply List.map_congr_left
  intro p _
  unfold edgeFor
  rw [aggKey_none_group pre post r hk p]

/-- C8 witness: the insertion invariance at a concrete keyless occurrence. -/
theorem c8_witness :
    aggregateEdges ([] ++ mkRow (some "S") none none none none :: []) =
      aggregateEdges ([] ++ ([] : List CitationRow)) ∧
    (rawsOf (build_citation_map [c8Dir])).map targetKeyOf =
      [some "[2020] EWCA Civ 5", none] ∧
    (edgesOf (build_citation_map [c8Dir])).map
      (fun e => (e.source_case_id, e.target_key, e.count_total)) =
      [("https://caselaw.nationalarchives.gov.uk/uksc/2020/1", "[2020] EWCA Civ 5", 1)] :=
  c8_theorem [] [] (mkRow (some "S") none none none none) rfl rfl

/-! ### Claim C9 -/

theorem dropDup_not_seen (rows : List CaseRow) :
    ∀ (seen : List (Option String)) (r : CaseRow),
      r ∈ dropDupCases seen rows → seen.contains r.case_id = false := by
  induction rows with
  | nil => intro seen r h; simp [dropDupCases] at h
  | cons x rest ih =>
    intro seen r h
    unfold dropDupCases at h
    split at h
    case isTrue hc => exact ih seen r h
    case isFalse hc =>
      rcases List.mem_cons.mp h with rfl | h'
      · cases hcb : seen.contains r.case_id
        · rfl
        · exact absurd hcb hc
      · have hns := ih _ r h'
        rw [List.contains_cons] at hns
        exact (Bool.or_eq_false_iff.mp hns).2

theorem dropDup_nodup (rows : List CaseRow) :
    ∀ seen, ((dropDupCases seen rows).map CaseRow.case_id).Nodup := by
  induction rows with
  | nil => intro seen; simp [dropDupCases]
  | cons x rest ih =>
    intro seen
    unfold dropDupCases
    split
    · exact ih seen
    · rw [List.map_cons, List.nodup_cons]
      refine ⟨?_, ih _⟩
      intro hmem
      rcases List.mem_map.mp hmem with ⟨r, hr, hkey⟩
      have hns := dropDup_not_seen rest _ r hr
      rw [List.contains_cons, hkey] at hns
      simp at hns

theorem dropDup_first (rows : List CaseRow) :
    ∀ (seen : List (Option String)) (r : CaseRow), r ∈ dropDupCases seen rows →
      rows.find? (fun x => x.case_id == r.case_id) = some r := by
  induction rows with
  | nil => intro seen r h; simp [dropDupCases] at h
  | cons x rest ih =>
    intro seen r h
    unfold dropDupCases at h
    split at h
    case isTrue hc =>
      have hns := dropDup_not_seen rest seen r h
      have hb : (x.case_id == r.case_id) = false := by
        cases hxx : x.case_id == r.case_id
        · rfl
        · rw [beq_iff_eq.mp hxx] at hc
          rw [hc] at hns
          exact Bool.noConfusion hns
      rw [List.find?_cons]
      simp only [hb]
      exact ih seen r h
    case isFalse hc =>
      rcases List.mem_cons.mp h with rfl | h'
      · simp [List.find?_cons]
      · have hns := dropDup_not_seen rest _ r h'
        rw [List.contains_cons] at hns
        have hne1 : (r.case_id == x.case_id) = false := (Bool.or_eq_false_iff.mp hns).1
        have hb : (x.case_id == r.case_id) = false := by
          cases hxx : x.case_id == r.case_id
          · rfl
          · rw [beq_iff_eq.mp hxx, beq_self_eq_true] at hne1
            exact Bool.noConfusion hne1
        rw [List.find?_cons]
        simp only [hb]
        exact ih _ r h'

/-- C9: the node table's `case_id` values are unique (missing identifiers
included), every kept row is the first row carrying its `case_id`, and the
build is a pure function of the corpus, so running it twice yields
identical tables. -/
theorem c9_theorem :
    (∀ dirs : List CaseDir,
      ((casesOf (build_citation_map dirs)).map CaseRow.case_id).Nodup) ∧
    (∀ (rows : List CaseRow) (r : CaseRow), r ∈ dropDupCases [] rows →
      rows.find? (fun x => x.case_id == r.case_id) = some r) ∧
    (∀ dirs : List CaseDir, build_citation_map dirs = build_citation_map dirs) := by
  refine ⟨?_, fun rows r h => dropDup_first rows [] r h, fun _ => rfl⟩
  intro dirs
  cases hp : processCases dirs with
  | error e => simp [build_citation_map, casesOf, hp]
  | ok t =>
    obtain ⟨cs, is⟩ := t
    by_cases h1 : cs.isEmpty
    · simp [build_citation_map, casesOf, hp, h1]
    · by_cases h2 : is.isEmpty
      · simp [build_citation_map, casesOf, hp, h1, h2]
      · simp only [build_citation_map, casesOf, hp, h1, h2, if_false]
        exact dropDup_nodup cs []

/-- C9 witness: uniqueness, first-occurrence retention and determinism at
concrete inputs. -/
theorem c9_witness :
    ((casesOf (build_citation_map [c2OkDir])).map CaseRow.case_id).Nodup ∧
    ([mkCRow (some "X") "a", mkCRow (some "X") "b"].find?
      (fun x => x.case_id == (mkCRow (some "X") "a").case_id) =
      some (mkCRow (some "X") "a")) ∧
    build_citation_map [c2OkDir] = build_citation_map [c2OkDir] :=
  ⟨c9_theorem.1 [c2OkDir],
   c9_theorem.2.1 [mkCRow (some "X") "a", mkCRow (some "X") "b"]
     (mkCRow (some "X") "a") (by decide),
   c9_theorem.2.2 [c2OkDir]⟩
